import Mathlib

/-!
Verification of the wgpu-test engine (src/engine/src): the light-buffer
layout (light.rs), the camera controllers (camera.rs) and the geometry
builder (geometry.rs), embedded shallowly.  Byte sizes and offsets are
modelled over Nat; f32 arithmetic in the cameras is idealized as exact
real arithmetic; f32 arithmetic in the geometry builder is idealized as
exact rational arithmetic, extended with an absorbing non-finite element
where IEEE division by zero matters.
-/

/-! ## Light buffer layout (light.rs) -/

/-- The four light kinds of light.rs. -/
inductive LightKind
  | Ambient
  | Directional
  | Point
  | Spot
deriving DecidableEq

/-- MAX_AMBIENT_LIGHTS in light.rs. -/
def MAX_AMBIENT_LIGHTS : ℕ := 1

/-- MAX_DIRECTIONAL_LIGHTS in light.rs. -/
def MAX_DIRECTIONAL_LIGHTS : ℕ := 10

/-- MAX_POINT_LIGHTS in light.rs. -/
def MAX_POINT_LIGHTS : ℕ := 256

/-- MAX_SPOT_LIGHTS in light.rs. -/
def MAX_SPOT_LIGHTS : ℕ := 256

/-- size_of of the ambient uniform, a [f32; 4]: 16 bytes. -/
def AMBIENT_UNIFORM_SIZE : ℕ := 16

/-- size_of of DirectionalLightUniform (repr(C)): base [f32;4] (16) +
direction [f32;3] (12) + one u32 of padding (4) = 32 bytes. -/
def DIRECTIONAL_UNIFORM_SIZE : ℕ := 32

/-- size_of of PointLightUniform (repr(C)): three ([f32;3] + u32 padding)
groups of 16 bytes each = 48 bytes. -/
def POINT_UNIFORM_SIZE : ℕ := 48

/-- size_of of SpotLightUniform (repr(C)): PointLightUniform (48) +
direction_cutoffcos [f32;4] (16) = 64 bytes. -/
def SPOT_UNIFORM_SIZE : ℕ := 64

/-- Byte size of each kind's uniform struct. -/
def uniformSize : LightKind → ℕ
  | .Ambient => AMBIENT_UNIFORM_SIZE
  | .Directional => DIRECTIONAL_UNIFORM_SIZE
  | .Point => POINT_UNIFORM_SIZE
  | .Spot => SPOT_UNIFORM_SIZE

/-- Slot capacity of each kind's array in LightBuffer. -/
def capacity : LightKind → ℕ
  | .Ambient => MAX_AMBIENT_LIGHTS
  | .Directional => MAX_DIRECTIONAL_LIGHTS
  | .Point => MAX_POINT_LIGHTS
  | .Spot => MAX_SPOT_LIGHTS

/-- LightBufferManager::calculate_buffer_offset, with each size_of
expression replaced by the byte size of the corresponding repr(C) layout
(array sizes are capacity times element size). -/
def calculate_buffer_offset : LightKind → ℕ → ℕ
  | .Ambient, index => AMBIENT_UNIFORM_SIZE * index
  | .Directional, index =>
      MAX_AMBIENT_LIGHTS * AMBIENT_UNIFORM_SIZE
        + DIRECTIONAL_UNIFORM_SIZE * index
  | .Point, index =>
      MAX_AMBIENT_LIGHTS * AMBIENT_UNIFORM_SIZE
        + MAX_DIRECTIONAL_LIGHTS * DIRECTIONAL_UNIFORM_SIZE
        + POINT_UNIFORM_SIZE * index
  | .Spot, index =>
      MAX_AMBIENT_LIGHTS * AMBIENT_UNIFORM_SIZE
        + MAX_DIRECTIONAL_LIGHTS * DIRECTIONAL_UNIFORM_SIZE
        + MAX_POINT_LIGHTS * POINT_UNIFORM_SIZE
        + SPOT_UNIFORM_SIZE * index

/-- LightBufferManager::update_light_counts issues one write_buffer call;
this is its byte offset and byte length (four u32 values). -/
def update_light_counts_write : ℕ × ℕ :=
  (calculate_buffer_offset .Spot MAX_SPOT_LIGHTS, 4 * 4)

/-- The kinds preceding a given kind in the LightBuffer field order. -/
def precedingKinds : LightKind → List LightKind
  | .Ambient => []
  | .Directional => [.Ambient]
  | .Point => [.Ambient, .Directional]
  | .Spot => [.Ambient, .Directional, .Point]

/-- Spec-side formula: sum of the full byte sizes of all preceding
kind-arrays. -/
def specPrefixBytes (k : LightKind) : ℕ :=
  ((precedingKinds k).map (fun j => capacity j * uniformSize j)).sum

/-! ## Geometry builder (geometry.rs, model vertex layout from model.rs usage) -/

/-- Vertex record of the mesh builder: position, uv, normal, tangent,
bitangent components, generic in the scalar type standing in for f32. -/
structure ModelVertex (K : Type) where
  position : K × K × K
  tex_coords : K × K
  normal : K × K × K
  tangent : K × K × K
  bitangent : K × K × K
deriving DecidableEq

/-- A mesh: vertices plus triangle indices (u32 in the source). -/
structure Geometry (K : Type) where
  vertices : List (ModelVertex K)
  indices : List ℕ
deriving DecidableEq

/-- Componentwise subtraction of 3-vectors. -/
def t3sub {K : Type} [Sub K] (a b : K × K × K) : K × K × K :=
  (a.1 - b.1, a.2.1 - b.2.1, a.2.2 - b.2.2)

/-- Componentwise addition of 3-vectors. -/
def t3add {K : Type} [Add K] (a b : K × K × K) : K × K × K :=
  (a.1 + b.1, a.2.1 + b.2.1, a.2.2 + b.2.2)

/-- Vector times scalar (cgmath Vector3 * f32, scalar on the right). -/
def t3smul {K : Type} [Mul K] (a : K × K × K) (s : K) : K × K × K :=
  (a.1 * s, a.2.1 * s, a.2.2 * s)

/-- Componentwise subtraction of 2-vectors. -/
def t2sub {K : Type} [Sub K] (a b : K × K) : K × K :=
  (a.1 - b.1, a.2 - b.2)

/-- The all-zero vertex, used as the out-of-range default of list reads
(the source indexing panics out of range; all reads here are in range). -/
def mvDefault {K : Type} [OfNat K 0] : ModelVertex K :=
  { position := (0, 0, 0), tex_coords := (0, 0), normal := (0, 0, 0),
    tangent := (0, 0, 0), bitangent := (0, 0, 0) }

/-- Rust slice chunks(3) restricted to the complete 3-chunks (the source
panics on a trailing chunk shorter than 3; index lists here are always a
multiple of 3). -/
def chunks3 : List ℕ → List (ℕ × ℕ × ℕ)
  | a :: b :: c :: rest => (a, b, c) :: chunks3 rest
  | _ => []

/-- The UV-edge determinant delta_uv1.x * delta_uv2.y - delta_uv1.y *
delta_uv2.x of one triangle, the divisor of calculate_tangents_bitangents. -/
def triangleUVDet {K : Type} [Sub K] [Mul K] [OfNat K 0]
    (vertices : List (ModelVertex K)) (c : ℕ × ℕ × ℕ) : K :=
  let v0 := vertices.getD c.1 mvDefault
  let v1 := vertices.getD c.2.1 mvDefault
  let v2 := vertices.getD c.2.2 mvDefault
  let delta_uv1 := t2sub v1.tex_coords v0.tex_coords
  let delta_uv2 := t2sub v2.tex_coords v0.tex_coords
  delta_uv1.1 * delta_uv2.2 - delta_uv1.2 * delta_uv2.1

/-- Adds t to the tangent of vertex i (one read-modify-write of the
accumulation loop). -/
def addToTangent {K : Type} [Add K] [OfNat K 0]
    (vertices : List (ModelVertex K)) (i : ℕ) (t : K × K × K) :
    List (ModelVertex K) :=
  let v := vertices.getD i mvDefault
  vertices.set i { v with tangent := t3add t v.tangent }

/-- Adds b to the bitangent of vertex i. -/
def addToBitangent {K : Type} [Add K] [OfNat K 0]
    (vertices : List (ModelVertex K)) (i : ℕ) (b : K × K × K) :
    List (ModelVertex K) :=
  let v := vertices.getD i mvDefault
  vertices.set i { v with bitangent := t3add b v.bitangent }

/-- One iteration of the triangle loop of calculate_tangents_bitangents:
computes the triangle's tangent and bitangent and accumulates them into
its three vertices, in source order (three tangent writes, then three
bitangent writes). -/
def addTriangle {K : Type} [Add K] [Sub K] [Mul K] [Div K] [Neg K]
    [OfNat K 0] [OfNat K 1]
    (vertices : List (ModelVertex K)) (c : ℕ × ℕ × ℕ) :
    List (ModelVertex K) :=
  let v0 := vertices.getD c.1 mvDefault
  let v1 := vertices.getD c.2.1 mvDefault
  let v2 := vertices.getD c.2.2 mvDefault
  let delta_pos1 := t3sub v1.position v0.position
  let delta_pos2 := t3sub v2.position v0.position
  let delta_uv1 := t2sub v1.tex_coords v0.tex_coords
  let delta_uv2 := t2sub v2.tex_coords v0.tex_coords
  let r := (1 : K) / (triangleUVDet vertices c)
  let tangent :=
    t3smul (t3sub (t3smul delta_pos1 delta_uv2.2) (t3smul delta_pos2 delta_uv1.2)) r
  let bitangent :=
    t3smul (t3sub (t3smul delta_pos2 delta_uv1.1) (t3smul delta_pos1 delta_uv2.1)) (-r)
  let vs1 := addToTangent vertices c.1 tangent
  let vs2 := addToTangent vs1 c.2.1 tangent
  let vs3 := addToTangent vs2 c.2.2 tangent
  let vs4 := addToBitangent vs3 c.1 bitangent
  let vs5 := addToBitangent vs4 c.2.1 bitangent
  addToBitangent vs5 c.2.2 bitangent

/-- Increments triangles_included at slot i. -/
def incrCount (counts : List ℕ) (i : ℕ) : List ℕ :=
  counts.set i (counts.getD i 0 + 1)

/-- Increments triangles_included at the triangle's three slots. -/
def incr3 (counts : List ℕ) (c : ℕ × ℕ × ℕ) : List ℕ :=
  incrCount (incrCount (incrCount counts c.1) c.2.1) c.2.2

/-- One step of the triangle loop on the (vertices, triangles_included)
pair. -/
def tangentStep {K : Type} [Add K] [Sub K] [Mul K] [Div K] [Neg K]
    [OfNat K 0] [OfNat K 1]
    (acc : List (ModelVertex K) × List ℕ) (c : ℕ × ℕ × ℕ) :
    List (ModelVertex K) × List ℕ :=
  (addTriangle acc.1 c, incr3 acc.2 c)

/-- calculate_tangents_bitangents of geometry.rs: accumulates per-triangle
tangents/bitangents into the vertices while counting incident triangles,
then scales each vertex's accumulated tangent/bitangent by
1 / triangles_included. -/
def calculate_tangents_bitangents {K : Type} [Add K] [Sub K] [Mul K]
    [Div K] [Neg K] [OfNat K 0] [OfNat K 1] [NatCast K]
    (vertices : List (ModelVertex K)) (indices : List ℕ) :
    List (ModelVertex K) :=
  let res := (chunks3 indices).foldl tangentStep
    (vertices, List.replicate vertices.length 0)
  List.zipWith
    (fun (v : ModelVertex K) (n : ℕ) =>
      let denom := (1 : K) / (n : K)
      { v with tangent := t3smul v.tangent denom,
               bitangent := t3smul v.bitangent denom })
    res.1 res.2

/-- Geometry::plane of geometry.rs: a row-major (rows+1) x (columns+1)
vertex grid with two triangles per quad, tangents filled in by
calculate_tangents_bitangents. -/
def Geometry.plane (width height : ℚ) (rows columns : ℕ) : Geometry ℚ :=
  let quad_width := width / (columns : ℚ)
  let quad_height := height / (rows : ℚ)
  let start_x := -width / 2
  let start_z := -height / 2
  let vertices := (List.range (rows + 1)).flatMap (fun r =>
    (List.range (columns + 1)).map (fun c =>
      let position : ℚ × ℚ × ℚ :=
        (start_x + (c : ℚ) * quad_width, 0, start_z + (r : ℚ) * quad_height)
      let tex_coords : ℚ × ℚ :=
        ((-position.1 / start_x + 1) / 2, (-position.2.2 / start_z + 1) / 2)
      { position := position, tex_coords := tex_coords,
        normal := (0, 1, 0), tangent := (0, 0, 0), bitangent := (0, 0, 0) }))
  let indices := (List.range rows).flatMap (fun r =>
    let row_len := columns + 1
    (List.range columns).flatMap (fun c =>
      [r * row_len + c,
       (r + 1) * row_len + c,
       (r + 1) * row_len + c + 1,
       r * row_len + c,
       (r + 1) * row_len + c + 1,
       r * row_len + c + 1]))
  { vertices := calculate_tangents_bitangents vertices indices,
    indices := indices }

/-! ## A minimal f32 model for the division-by-zero claim

Finite f32 values whose operations stay exact are modelled as rationals;
every non-finite value (either infinity or NaN) collapses into one
absorbing element.  On the operations this code performs on the
division-by-zero path (finite exact arithmetic, division of a nonzero
finite by zero, multiplication/addition of a finite with a non-finite),
this is a sound abstraction of IEEE 754: each such operation on a
non-finite operand again yields a non-finite value. -/
inductive FExt
  | fin : ℚ → FExt
  | nonfin
deriving DecidableEq

instance : Add FExt :=
  ⟨fun a b => match a, b with
    | .fin x, .fin y => .fin (x + y)
    | _, _ => .nonfin⟩

instance : Sub FExt :=
  ⟨fun a b => match a, b with
    | .fin x, .fin y => .fin (x - y)
    | _, _ => .nonfin⟩

instance : Mul FExt :=
  ⟨fun a b => match a, b with
    | .fin x, .fin y => .fin (x * y)
    | _, _ => .nonfin⟩

instance : Neg FExt :=
  ⟨fun a => match a with
    | .fin x => .fin (-x)
    | .nonfin => .nonfin⟩

instance : Div FExt :=
  ⟨fun a b => match a, b with
    | .fin x, .fin y => if y = 0 then .nonfin else .fin (x / y)
    | _, _ => .nonfin⟩

instance : OfNat FExt 0 := ⟨.fin 0⟩

instance : OfNat FExt 1 := ⟨.fin 1⟩

instance : NatCast FExt := ⟨fun n => .fin n⟩

/-- A triangle whose three vertices carry the same texture coordinate, so
both UV edges are zero and the UV-edge determinant vanishes. -/
def degenVertices : List (ModelVertex FExt) :=
  [ { position := (.fin 0, .fin 0, .fin 0), tex_coords := (.fin 0, .fin 0),
      normal := (.fin 0, .fin 0, .fin 1), tangent := (.fin 0, .fin 0, .fin 0),
      bitangent := (.fin 0, .fin 0, .fin 0) },
    { position := (.fin 1, .fin 0, .fin 0), tex_coords := (.fin 0, .fin 0),
      normal := (.fin 0, .fin 0, .fin 1), tangent := (.fin 0, .fin 0, .fin 0),
      bitangent := (.fin 0, .fin 0, .fin 0) },
    { position := (.fin 0, .fin 1, .fin 0), tex_coords := (.fin 0, .fin 0),
      normal := (.fin 0, .fin 0, .fin 1), tangent := (.fin 0, .fin 0, .fin 0),
      bitangent := (.fin 0, .fin 0, .fin 0) } ]

/-- Index list of the single degenerate triangle. -/
def degenIndices : List ℕ := [0, 1, 2]

/-- The y component of the cross product of two 3-vectors, the signed
area deciding triangle orientation seen from above (+y, the plane's
normal direction). -/
def crossY (u v : ℚ × ℚ × ℚ) : ℚ := u.2.2 * v.1 - u.1 * v.2.2

/-- A triangle (p, q, r) is counter-clockwise seen from above when the
cross product of its edge vectors points along +y. -/
def ccwFromAbove (p q r : ℚ × ℚ × ℚ) : Prop :=
  0 < crossY (t3sub q p) (t3sub r p)

/-- The position of vertex i of a mesh. -/
def posAt (g : Geometry ℚ) (i : ℕ) : ℚ × ℚ × ℚ :=
  (g.vertices.getD i mvDefault).position

/-! ## Cameras (camera.rs); f32 idealized as the reals -/

/-- A 3-vector of reals (cgmath Vector3 or Point3 of f32). -/
abbrev V3 : Type := ℝ × ℝ × ℝ

/-- Dot product. -/
noncomputable def v3dot (a b : V3) : ℝ :=
  a.1 * b.1 + a.2.1 * b.2.1 + a.2.2 * b.2.2

/-- cgmath magnitude: the square root of the dot square. -/
noncomputable def v3mag (a : V3) : ℝ := Real.sqrt (v3dot a a)

/-- cgmath normalize: the vector times one over its magnitude. -/
noncomputable def v3normalize (a : V3) : V3 := t3smul a (1 / v3mag a)

/-- Cross product. -/
noncomputable def v3cross (a b : V3) : V3 :=
  (a.2.1 * b.2.2 - a.2.2 * b.2.1,
   a.2.2 * b.1 - a.1 * b.2.2,
   a.1 * b.2.1 - a.2.1 * b.1)

/-- winit ElementState. -/
inductive ElementState
  | Pressed
  | Released
deriving DecidableEq

/-- The winit virtual key codes the two input handlers distinguish; every
other key, handled by the catch-all arm, collapses into OtherKey. -/
inductive VirtualKeyCode
  | W
  | A
  | S
  | D
  | R
  | Up
  | Down
  | Left
  | Right
  | Space
  | LControl
  | LShift
  | OtherKey
deriving DecidableEq

/-- winit mouse buttons; both cameras ignore mouse-button events. -/
inductive MouseButton
  | Left
  | Right
  | Middle
  | OtherButton
deriving DecidableEq

/-- ControllerEvent of controller.rs, reconstructed from its uses in
camera.rs and lib.rs: keyboard state/key, mouse-move delta, scroll amount,
and mouse-button events. -/
inductive ControllerEvent
  | KeyboardInput : ElementState → VirtualKeyCode → ControllerEvent
  | MouseMove : ℝ × ℝ → ControllerEvent
  | MouseScroll : ℝ → ControllerEvent
  | MouseInput : ElementState → MouseButton → ControllerEvent

/-- Projection parameters (camera.rs); the claims never read them. -/
structure Projection where
  aspect : ℝ
  fovy : ℝ
  znear : ℝ
  zfar : ℝ

/-- The orbit camera state (camera.rs PerspectiveCamera). -/
structure PerspectiveCamera where
  eye : V3
  target : V3
  up : V3
  is_forward_pressed : Bool
  is_backward_pressed : Bool
  is_left_pressed : Bool
  is_right_pressed : Bool
  is_up_pressed : Bool
  is_down_pressed : Bool
  projection : Projection
  speed : ℝ

/-- Controller::input for PerspectiveCamera: updates pressed flags from
keyboard events; the R key resets eye to (0, 5, 10) on press and release
alike; all other events are ignored. -/
noncomputable def PerspectiveCamera.input (c : PerspectiveCamera)
    (event : ControllerEvent) : PerspectiveCamera :=
  match event with
  | .KeyboardInput state key =>
    let is_pressed : Bool := decide (state = ElementState.Pressed)
    match key with
    | .W | .Up => { c with is_forward_pressed := is_pressed }
    | .A | .Left => { c with is_left_pressed := is_pressed }
    | .S | .Down => { c with is_backward_pressed := is_pressed }
    | .D | .Right => { c with is_right_pressed := is_pressed }
    | .R => { c with eye := (0, 5, 10) }
    | .Space => { c with is_up_pressed := is_pressed }
    | .LControl => { c with is_down_pressed := is_pressed }
    | _ => c
  | _ => c

/-- Controller::update for PerspectiveCamera, with dt already converted
to seconds: moves eye toward or away from target, or orbits it, following
the source's sequence of conditional eye updates (forward is recomputed
once after the forward/backward moves; right and the up offset keep the
original forward_norm). -/
noncomputable def PerspectiveCamera.update (c : PerspectiveCamera)
    (dt : ℝ) : PerspectiveCamera :=
  let forward := t3sub c.target c.eye
  let forward_norm := v3normalize forward
  let forward_mag := v3mag forward
  let eye1 := if c.is_forward_pressed ∧ forward_mag > 1 then
      t3add c.eye (t3smul forward_norm (c.speed * dt)) else c.eye
  let eye2 := if c.is_backward_pressed then
      t3sub eye1 (t3smul forward_norm (c.speed * dt)) else eye1
  let right := v3cross forward_norm c.up
  let forward2 := t3sub c.target eye2
  let forward_mag2 := v3mag forward2
  let eye3 := if c.is_right_pressed then
      t3sub c.target
        (t3smul (v3normalize (t3add forward2 (t3smul right (c.speed * dt))))
          forward_mag2)
    else eye2
  let eye4 := if c.is_left_pressed then
      t3sub c.target
        (t3smul (v3normalize (t3sub forward2 (t3smul right (c.speed * dt))))
          forward_mag2)
    else eye3
  let up2 := t3sub forward_norm (v3normalize c.up)
  let eye5 := if c.is_up_pressed then
      t3sub c.target
        (t3smul (v3normalize (t3add forward2 (t3smul up2 (c.speed * dt))))
          forward_mag2)
    else eye4
  let eye6 := if c.is_down_pressed then
      t3sub c.target
        (t3smul (v3normalize (t3sub forward2 (t3smul up2 (c.speed * dt))))
          forward_mag2)
    else eye5
  { c with eye := eye6 }

/-- The distance between target and eye of the orbit camera. -/
noncomputable def pdist (c : PerspectiveCamera) : ℝ :=
  v3mag (t3sub c.target c.eye)

/-- SAFE_FRAC_PI_2 of camera.rs: pi/2 minus 0.0001. -/
noncomputable def SAFE_FRAC_PI_2 : ℝ := Real.pi / 2 - 1 / 10000

/-- The FPS camera state (camera.rs FPSCamera). -/
structure FPSCamera where
  yaw : ℝ
  pitch : ℝ
  amount_left : ℝ
  amount_right : ℝ
  amount_forward : ℝ
  amount_backward : ℝ
  amount_up : ℝ
  amount_down : ℝ
  rotate_horizontal : ℝ
  rotate_vertical : ℝ
  scroll : ℝ
  position : V3
  projection : Projection
  speed : ℝ
  sensitivity : ℝ

/-- Controller::input for FPSCamera: keyboard events set movement amounts
to 1 on press and 0 on release; mouse-move overwrites the two rotation
deltas; mouse-scroll subtracts from the scroll accumulator; everything
else is ignored. -/
noncomputable def FPSCamera.input (c : FPSCamera) (event : ControllerEvent) :
    FPSCamera :=
  match event with
  | .KeyboardInput state key =>
    let amount : ℝ := if state = ElementState.Pressed then 1 else 0
    match key with
    | .W | .Up => { c with amount_forward := amount }
    | .S | .Down => { c with amount_backward := amount }
    | .A | .Left => { c with amount_left := amount }
    | .D | .Right => { c with amount_right := amount }
    | .Space => { c with amount_up := amount }
    | .LShift => { c with amount_down := amount }
    | _ => c
  | .MouseMove d => { c with rotate_horizontal := d.1, rotate_vertical := d.2 }
  | .MouseScroll s => { c with scroll := c.scroll - s }
  | .MouseInput _ _ => c

/-- The scroll movement direction of FPSCamera::update: the normalized
spherical direction (cos pitch cos yaw, sin pitch, cos pitch sin yaw). -/
noncomputable def scrollwardDir (yaw pitch : ℝ) : V3 :=
  v3normalize (Real.cos pitch * Real.cos yaw, Real.sin pitch,
    Real.cos pitch * Real.sin yaw)

/-- The normalized look direction FPSCamera::view_proj passes to
Matrix4::look_to_rh: (cos yaw, sin pitch, sin yaw), normalized. -/
noncomputable def fpsViewDir (yaw pitch : ℝ) : V3 :=
  v3normalize (Real.cos yaw, Real.sin pitch, Real.sin yaw)

/-- The pitch clamp at the end of FPSCamera::update. -/
noncomputable def clampPitch (p : ℝ) : ℝ :=
  if p < -SAFE_FRAC_PI_2 then -SAFE_FRAC_PI_2
  else if p > SAFE_FRAC_PI_2 then SAFE_FRAC_PI_2
  else p

/-- Controller::update for FPSCamera, dt in seconds: moves on the yaw
plane, dollies along the scroll direction, adjusts height, integrates the
rotation deltas into yaw and pitch, zeroes the deltas and the scroll
accumulator, and clamps pitch. -/
noncomputable def FPSCamera.update (c : FPSCamera) (dt : ℝ) : FPSCamera :=
  let yaw_sin := Real.sin c.yaw
  let yaw_cos := Real.cos c.yaw
  let forward := v3normalize (yaw_cos, 0, yaw_sin)
  let right := v3normalize (-yaw_sin, 0, yaw_cos)
  let pos1 := t3add c.position
    (t3smul forward ((c.amount_forward - c.amount_backward) * c.speed * dt))
  let pos2 := t3add pos1
    (t3smul right ((c.amount_right - c.amount_left) * c.speed * dt))
  let pos3 := t3add pos2
    (t3smul (scrollwardDir c.yaw c.pitch)
      (c.scroll * c.speed * c.sensitivity * dt))
  let pos4 : V3 :=
    (pos3.1, pos3.2.1 + (c.amount_up - c.amount_down) * c.speed * dt, pos3.2.2)
  let yaw2 := c.yaw + c.rotate_horizontal * c.sensitivity * dt
  let pitch2 := c.pitch + (-c.rotate_vertical) * c.sensitivity * dt
  { c with
    position := pos4,
    yaw := yaw2,
    pitch := clampPitch pitch2,
    rotate_horizontal := 0,
    rotate_vertical := 0,
    scroll := 0 }

/-- A throwaway projection for concrete cameras. -/
noncomputable def projDefault : Projection :=
  { aspect := 1, fovy := 1, znear := 1, zfar := 2 }

/-- A concrete orbit camera at eye (1,2,3) with no key pressed. -/
noncomputable def perspCam0 : PerspectiveCamera :=
  { eye := (1, 2, 3), target := (0, 0, 0), up := (0, 1, 0),
    is_forward_pressed := false, is_backward_pressed := false,
    is_left_pressed := false, is_right_pressed := false,
    is_up_pressed := false, is_down_pressed := false,
    projection := projDefault, speed := 1 }

/-- A concrete orbit camera 2 units from its target, forward pressed,
speed 3/2: one update with dt = 1 overshoots the unit clamp. -/
noncomputable def perspCamFwd : PerspectiveCamera :=
  { eye := (0, 0, 0), target := (0, 0, 2), up := (0, 1, 0),
    is_forward_pressed := true, is_backward_pressed := false,
    is_left_pressed := false, is_right_pressed := false,
    is_up_pressed := false, is_down_pressed := false,
    projection := projDefault, speed := 3 / 2 }

/-- A concrete FPS camera at rest with 5 accumulated scroll units. -/
noncomputable def fpsCam0 : FPSCamera :=
  { yaw := 0, pitch := 0, amount_left := 0, amount_right := 0,
    amount_forward := 0, amount_backward := 0, amount_up := 0,
    amount_down := 0, rotate_horizontal := 0, rotate_vertical := 0,
    scroll := 5, position := (0, 0, 0), projection := projDefault,
    speed := 1, sensitivity := 1 }


/-! ## Theorems -/

/-- Claim C1: for every kind K and index i < capacity K, the computed
buffer offset equals the sum of the byte sizes of all preceding
kind-arrays plus i times K's uniform size; offset(Point,0) = 336,
offset(Spot,0) = 12624; and update_light_counts writes a 16-byte count
header at offset(Spot, 256) = 29008, which lies at or after the end of
every slot (so it overlaps no slot). -/
theorem c1_buffer_layout :
    (∀ (k : LightKind) (i : ℕ), i < capacity k →
        calculate_buffer_offset k i = specPrefixBytes k + i * uniformSize k) ∧
    calculate_buffer_offset .Point 0 = 336 ∧
    calculate_buffer_offset .Spot 0 = 12624 ∧
    update_light_counts_write.1 = 29008 ∧
    update_light_counts_write.2 = 16 ∧
    (∀ (k : LightKind) (i : ℕ), i < capacity k →
        calculate_buffer_offset k i + uniformSize k ≤ 29008) := by
  refine ⟨?_, by decide, by decide, by decide, by decide, ?_⟩
  · intro k i _
    cases k <;>
      simp [calculate_buffer_offset, specPrefixBytes, precedingKinds, capacity,
        uniformSize, MAX_AMBIENT_LIGHTS, MAX_DIRECTIONAL_LIGHTS,
        MAX_POINT_LIGHTS, MAX_SPOT_LIGHTS, AMBIENT_UNIFORM_SIZE,
        DIRECTIONAL_UNIFORM_SIZE, POINT_UNIFORM_SIZE, SPOT_UNIFORM_SIZE] <;>
      ring
  · intro k i hi
    cases k <;>
      simp only [calculate_buffer_offset, capacity, uniformSize,
        MAX_AMBIENT_LIGHTS, MAX_DIRECTIONAL_LIGHTS, MAX_POINT_LIGHTS,
        MAX_SPOT_LIGHTS, AMBIENT_UNIFORM_SIZE, DIRECTIONAL_UNIFORM_SIZE,
        POINT_UNIFORM_SIZE, SPOT_UNIFORM_SIZE] at hi ⊢ <;>
      omega
/-- Witness for C1: the last spot slot (index 255) instantiates the layout
formula, and its end stays at or before the count header. -/
theorem c1_buffer_layout_witness :
    calculate_buffer_offset .Spot 255
        = specPrefixBytes .Spot + 255 * uniformSize .Spot ∧
    calculate_buffer_offset .Spot 255 + uniformSize .Spot ≤ 29008 :=
  ⟨c1_buffer_layout.1 .Spot 255 (by decide),
   c1_buffer_layout.2.2.2.2.2 .Spot 255 (by decide)⟩
@[simp] theorem FExt.fin_add_fin (x y : ℚ) :
    FExt.fin x + FExt.fin y = FExt.fin (x + y) := rfl
@[simp] theorem FExt.nonfin_add (a : FExt) :
    FExt.nonfin + a = FExt.nonfin := by cases a <;> rfl
@[simp] theorem FExt.add_nonfin (a : FExt) :
    a + FExt.nonfin = FExt.nonfin := by cases a <;> rfl
@[simp] theorem FExt.fin_sub_fin (x y : ℚ) :
    FExt.fin x - FExt.fin y = FExt.fin (x - y) := rfl
@[simp] theorem FExt.nonfin_sub (a : FExt) :
    FExt.nonfin - a = FExt.nonfin := by cases a <;> rfl
@[simp] theorem FExt.sub_nonfin (a : FExt) :
    a - FExt.nonfin = FExt.nonfin := by cases a <;> rfl
@[simp] theorem FExt.fin_mul_fin (x y : ℚ) :
    FExt.fin x * FExt.fin y = FExt.fin (x * y) := rfl
@[simp] theorem FExt.nonfin_mul (a : FExt) :
    FExt.nonfin * a = FExt.nonfin := by cases a <;> rfl
@[simp] theorem FExt.mul_nonfin (a : FExt) :
    a * FExt.nonfin = FExt.nonfin := by cases a <;> rfl
@[simp] theorem FExt.neg_fin (x : ℚ) : -FExt.fin x = FExt.fin (-x) := rfl
@[simp] theorem FExt.neg_nonfin : -FExt.nonfin = FExt.nonfin := rfl
@[simp] theorem FExt.fin_div_fin (x y : ℚ) :
    FExt.fin x / FExt.fin y
      = if y = 0 then FExt.nonfin else FExt.fin (x / y) := rfl
@[simp] theorem FExt.div_nonfin (a : FExt) :
    a / FExt.nonfin = FExt.nonfin := by cases a <;> rfl
@[simp] theorem FExt.zero_def : (0 : FExt) = FExt.fin 0 := rfl
@[simp] theorem FExt.one_def : (1 : FExt) = FExt.fin 1 := rfl
@[simp] theorem FExt.natCast_def (n : ℕ) : (n : FExt) = FExt.fin n := rfl
/-- Claim C9: the division by the UV-edge determinant is unguarded: on an
input containing a triangle with zero UV-edge determinant, the function
produces a non-finite tangent component (x component of vertex 0 here)
instead of failing or clamping. -/
theorem c9_unguarded_uv_division :
    triangleUVDet degenVertices (0, 1, 2) = FExt.fin 0 ∧
    ((calculate_tangents_bitangents degenVertices degenIndices).getD 0
        mvDefault).tangent.1 = FExt.nonfin := by
  constructor
  · simp [triangleUVDet, degenVertices, t2sub, mvDefault]
  · simp [calculate_tangents_bitangents, degenVertices, degenIndices,
      chunks3, addTriangle, triangleUVDet, addToTangent, addToBitangent,
      incr3, incrCount, t3add, t3sub, t3smul, t2sub, mvDefault,
      List.replicate, List.getD, List.zipWith, List.set]

/-- addToTangent never changes vertex positions. -/
theorem map_position_addToTangent {K : Type} [Add K] [OfNat K 0]
    (vs : List (ModelVertex K)) (i : ℕ) (t : K × K × K) :
    (addToTangent vs i t).map ModelVertex.position
      = vs.map ModelVertex.position := by
  induction vs generalizing i with
  | nil => rfl
  | cons v tl ih =>
    cases i with
    | zero => simp [addToTangent, List.getD]
    | succ n =>
      simp only [addToTangent, List.getD_cons_succ, List.set_cons_succ,
        List.map_cons, List.cons.injEq, true_and]
      exact ih n

/-- addToBitangent never changes vertex positions. -/
theorem map_position_addToBitangent {K : Type} [Add K] [OfNat K 0]
    (vs : List (ModelVertex K)) (i : ℕ) (b : K × K × K) :
    (addToBitangent vs i b).map ModelVertex.position
      = vs.map ModelVertex.position := by
  induction vs generalizing i with
  | nil => rfl
  | cons v tl ih =>
    cases i with
    | zero => simp [addToBitangent, List.getD]
    | succ n =>
      simp only [addToBitangent, List.getD_cons_succ, List.set_cons_succ,
        List.map_cons, List.cons.injEq, true_and]
      exact ih n

/-- The triangle loop body never changes vertex positions. -/
theorem map_position_addTriangle {K : Type} [Add K] [Sub K] [Mul K]
    [Div K] [Neg K] [OfNat K 0] [OfNat K 1]
    (vs : List (ModelVertex K)) (c : ℕ × ℕ × ℕ) :
    (addTriangle vs c).map ModelVertex.position
      = vs.map ModelVertex.position := by
  simp only [addTriangle, map_position_addToBitangent,
    map_position_addToTangent]

/-- The whole triangle fold never changes vertex positions. -/
theorem map_position_foldl {K : Type} [Add K] [Sub K] [Mul K]
    [Div K] [Neg K] [OfNat K 0] [OfNat K 1]
    (cs : List (ℕ × ℕ × ℕ)) :
    ∀ (vs : List (ModelVertex K)) (counts : List ℕ),
      ((cs.foldl tangentStep (vs, counts)).1).map ModelVertex.position
        = vs.map ModelVertex.position := by
  induction cs with
  | nil => intro vs counts; rfl
  | cons c cs ih =>
    intro vs counts
    simp only [List.foldl_cons, tangentStep]
    rw [ih, map_position_addTriangle]

/-- The averaging pass never changes vertex positions. -/
theorem map_position_zipWith {K : Type} [Mul K] [Div K] [OfNat K 1]
    [NatCast K] (vs : List (ModelVertex K)) :
    ∀ ns : List ℕ, vs.length ≤ ns.length →
      (List.zipWith
        (fun (v : ModelVertex K) (n : ℕ) =>
          let denom := (1 : K) / (n : K)
          { v with tangent := t3smul v.tangent denom,
                   bitangent := t3smul v.bitangent denom })
        vs ns).map ModelVertex.position
      = vs.map ModelVertex.position := by
  induction vs with
  | nil => intro ns _; rfl
  | cons v tl ih =>
    intro ns hlen
    cases ns with
    | nil => simp at hlen
    | cons n ns =>
      simp only [List.zipWith_cons_cons, List.map_cons, List.cons.injEq,
        true_and]
      exact ih ns (by simpa using hlen)

/-- addToTangent preserves the vertex count. -/
theorem length_addToTangent {K : Type} [Add K] [OfNat K 0]
    (vs : List (ModelVertex K)) (i : ℕ) (t : K × K × K) :
    (addToTangent vs i t).length = vs.length := by
  simp [addToTangent]

/-- addToBitangent preserves the vertex count. -/
theorem length_addToBitangent {K : Type} [Add K] [OfNat K 0]
    (vs : List (ModelVertex K)) (i : ℕ) (b : K × K × K) :
    (addToBitangent vs i b).length = vs.length := by
  simp [addToBitangent]

/-- The triangle loop body preserves the vertex count. -/
theorem length_addTriangle {K : Type} [Add K] [Sub K] [Mul K]
    [Div K] [Neg K] [OfNat K 0] [OfNat K 1]
    (vs : List (ModelVertex K)) (c : ℕ × ℕ × ℕ) :
    (addTriangle vs c).length = vs.length := by
  simp only [addTriangle, length_addToBitangent, length_addToTangent]

/-- incr3 preserves the count-list length. -/
theorem length_incr3 (counts : List ℕ) (c : ℕ × ℕ × ℕ) :
    (incr3 counts c).length = counts.length := by
  simp [incr3, incrCount]

/-- The triangle fold preserves both list lengths. -/
theorem length_foldl {K : Type} [Add K] [Sub K] [Mul K]
    [Div K] [Neg K] [OfNat K 0] [OfNat K 1]
    (cs : List (ℕ × ℕ × ℕ)) :
    ∀ (vs : List (ModelVertex K)) (counts : List ℕ),
      ((cs.foldl tangentStep (vs, counts)).1).length = vs.length ∧
      ((cs.foldl tangentStep (vs, counts)).2).length = counts.length := by
  induction cs with
  | nil => intro vs counts; exact ⟨rfl, rfl⟩
  | cons c cs ih =>
    intro vs counts
    simp only [List.foldl_cons, tangentStep]
    refine ⟨?_, ?_⟩
    · rw [(ih _ _).1, length_addTriangle]
    · rw [(ih _ _).2, length_incr3]

/-- calculate_tangents_bitangents never changes vertex positions. -/
theorem map_position_calculate_tangents_bitangents {K : Type} [Add K]
    [Sub K] [Mul K] [Div K] [Neg K] [OfNat K 0] [OfNat K 1] [NatCast K]
    (vs : List (ModelVertex K)) (is : List ℕ) :
    (calculate_tangents_bitangents vs is).map ModelVertex.position
      = vs.map ModelVertex.position := by
  unfold calculate_tangents_bitangents
  rw [map_position_zipWith, map_position_foldl]
  rw [(length_foldl _ _ _).1, (length_foldl _ _ _).2]
  simp

/-- Reading a vertex position through getD commutes with mapping
position over the list. -/
theorem position_getD (vs : List (ModelVertex ℚ)) (i : ℕ) :
    (vs.getD i mvDefault).position
      = (vs.map ModelVertex.position).getD i (0, 0, 0) := by
  induction vs generalizing i with
  | nil => rfl
  | cons v tl ih =>
    cases i with
    | zero => rfl
    | succ n => simpa using ih n

set_option maxHeartbeats 2000000 in
/-- Claim C8: plane(w, l, 1, 1) has exactly 4 vertices at the corners
(plus-minus w/2, 0, plus-minus l/2), and exactly 6 indices, all below 4,
forming 2 triangles that are counter-clockwise seen from above. -/
theorem c8_plane_1x1 (w l : ℚ) (hw : 0 < w) (hl : 0 < l) :
    (Geometry.plane w l 1 1).vertices.map ModelVertex.position
      = [(-w/2, 0, -l/2), (w/2, 0, -l/2), (-w/2, 0, l/2), (w/2, 0, l/2)] ∧
    (Geometry.plane w l 1 1).vertices.length = 4 ∧
    (Geometry.plane w l 1 1).indices = [0, 2, 3, 0, 3, 1] ∧
    (∀ i ∈ (Geometry.plane w l 1 1).indices, i < 4) ∧
    ccwFromAbove (posAt (Geometry.plane w l 1 1) 0)
      (posAt (Geometry.plane w l 1 1) 2) (posAt (Geometry.plane w l 1 1) 3) ∧
    ccwFromAbove (posAt (Geometry.plane w l 1 1) 0)
      (posAt (Geometry.plane w l 1 1) 3) (posAt (Geometry.plane w l 1 1) 1) := by
  have hmap : (Geometry.plane w l 1 1).vertices.map ModelVertex.position
      = [(-w/2, 0, -l/2), (w/2, 0, -l/2), (-w/2, 0, l/2), (w/2, 0, l/2)] := by
    simp only [Geometry.plane]
    rw [map_position_calculate_tangents_bitangents]
    norm_num [List.range_succ]
    refine ⟨by ring, by ring, by ring, by ring⟩
  have hidx : (Geometry.plane w l 1 1).indices = [0, 2, 3, 0, 3, 1] := by
    simp only [Geometry.plane]
    decide
  have hlen : (Geometry.plane w l 1 1).vertices.length = 4 := by
    have h := congrArg List.length hmap
    simpa using h
  refine ⟨hmap, hlen, hidx, ?_, ?_, ?_⟩
  · rw [hidx]; decide
  · simp only [ccwFromAbove, posAt, position_getD, hmap, crossY, t3sub,
      List.getD_cons_zero, List.getD_cons_succ]
    nlinarith [mul_pos hw hl]
  · simp only [ccwFromAbove, posAt, position_getD, hmap, crossY, t3sub,
      List.getD_cons_zero, List.getD_cons_succ]
    nlinarith [mul_pos hw hl]

/-- Witness for C8 at the concrete plane of width 2 and length 2. -/
theorem c8_plane_1x1_witness :
    (Geometry.plane 2 2 1 1).vertices.map ModelVertex.position
      = [(-(2:ℚ)/2, 0, -2/2), (2/2, 0, -2/2), (-(2:ℚ)/2, 0, 2/2), (2/2, 0, 2/2)] ∧
    (Geometry.plane 2 2 1 1).vertices.length = 4 ∧
    (Geometry.plane 2 2 1 1).indices = [0, 2, 3, 0, 3, 1] ∧
    (∀ i ∈ (Geometry.plane 2 2 1 1).indices, i < 4) ∧
    ccwFromAbove (posAt (Geometry.plane 2 2 1 1) 0)
      (posAt (Geometry.plane 2 2 1 1) 2) (posAt (Geometry.plane 2 2 1 1) 3) ∧
    ccwFromAbove (posAt (Geometry.plane 2 2 1 1) 0)
      (posAt (Geometry.plane 2 2 1 1) 3) (posAt (Geometry.plane 2 2 1 1) 1) :=
  c8_plane_1x1 2 2 (by norm_num) (by norm_num)

/-- The safe pitch bound is positive. -/
theorem SAFE_FRAC_PI_2_pos : 0 < SAFE_FRAC_PI_2 := by
  have h := Real.pi_gt_three
  unfold SAFE_FRAC_PI_2
  linarith

/-- The pitch clamp lands in the closed safe interval. -/
theorem clampPitch_mem (p : ℝ) :
    -SAFE_FRAC_PI_2 ≤ clampPitch p ∧ clampPitch p ≤ SAFE_FRAC_PI_2 := by
  have h := SAFE_FRAC_PI_2_pos
  unfold clampPitch
  split_ifs with h1 h2 <;> constructor <;> linarith

/-- The pitch clamp fixes values already in the safe interval. -/
theorem clampPitch_eq_self (p : ℝ) (h1 : -SAFE_FRAC_PI_2 ≤ p)
    (h2 : p ≤ SAFE_FRAC_PI_2) : clampPitch p = p := by
  unfold clampPitch
  split_ifs <;> linarith

/-- Counterexample to C2 as stated: pressing R on the orbit camera is a
controller event that does mutate the pose, resetting eye to (0, 5, 10). -/
theorem c2_input_pose_cex :
    (perspCam0.input
        (ControllerEvent.KeyboardInput ElementState.Pressed VirtualKeyCode.R)).eye
      ≠ perspCam0.eye := by
  simp [PerspectiveCamera.input, perspCam0, Prod.ext_iff]

/-- Claim C2 amended: input leaves the pose unchanged for every event
except the orbit camera's R key (press or release), which resets eye to
(0, 5, 10); the FPS camera's pose survives every input. -/
theorem c2_input_pose_amended :
    (∀ (c : PerspectiveCamera) (e : ControllerEvent),
      (∀ s : ElementState, e ≠ ControllerEvent.KeyboardInput s VirtualKeyCode.R) →
      (c.input e).eye = c.eye ∧ (c.input e).target = c.target ∧
      (c.input e).up = c.up) ∧
    (∀ (c : FPSCamera) (e : ControllerEvent),
      (FPSCamera.input c e).position = c.position ∧
      (FPSCamera.input c e).yaw = c.yaw ∧ (FPSCamera.input c e).pitch = c.pitch) := by
  constructor
  · intro c e he
    cases e with
    | KeyboardInput st k =>
      cases k
      case R => exact absurd rfl (he st)
      all_goals simp [PerspectiveCamera.input]
    | MouseMove d => simp [PerspectiveCamera.input]
    | MouseScroll s => simp [PerspectiveCamera.input]
    | MouseInput st b => simp [PerspectiveCamera.input]
  · intro c e
    cases e with
    | KeyboardInput st k => cases k <;> simp [FPSCamera.input]
    | MouseMove d => simp [FPSCamera.input]
    | MouseScroll s => simp [FPSCamera.input]
    | MouseInput st b => simp [FPSCamera.input]

/-- Witness for the amended C2 at a concrete scroll event. -/
theorem c2_input_pose_witness :
    (perspCam0.input (ControllerEvent.MouseScroll 1)).eye = perspCam0.eye ∧
    (perspCam0.input (ControllerEvent.MouseScroll 1)).target = perspCam0.target ∧
    (perspCam0.input (ControllerEvent.MouseScroll 1)).up = perspCam0.up := by
  refine c2_input_pose_amended.1 perspCam0 (ControllerEvent.MouseScroll 1) ?_
  intro s h
  simp at h

/-- Counterexample to C4 as stated: two mouse moves of 1 and 2 horizontal
units before one update rotate yaw by 2 (the last delta), not by 3 (the
sum). -/
theorem c4_mouse_overwrite_cex :
    (((fpsCam0.input (ControllerEvent.MouseMove (1, 0))).input
        (ControllerEvent.MouseMove (2, 0))).update 1).yaw
      ≠ fpsCam0.yaw + (1 + 2) * fpsCam0.sensitivity * 1 := by
  simp [FPSCamera.input, FPSCamera.update, fpsCam0]

/-- Claim C4 amended: a second MouseMove before the next update
overwrites the stored deltas (the composite input equals the last input
alone), so the next update rotates in proportion to the last delta. -/
theorem c4_mouse_overwrite_amended :
    (∀ (c : FPSCamera) (d1 d2 : ℝ × ℝ),
      (c.input (ControllerEvent.MouseMove d1)).input
          (ControllerEvent.MouseMove d2)
        = c.input (ControllerEvent.MouseMove d2)) ∧
    (∀ (c : FPSCamera) (d : ℝ × ℝ) (dt : ℝ),
      ((c.input (ControllerEvent.MouseMove d)).update dt).yaw
        = c.yaw + d.1 * c.sensitivity * dt) := by
  constructor
  · intro c d1 d2
    simp [FPSCamera.input]
  · intro c d dt
    simp [FPSCamera.input, FPSCamera.update]

/-- Claim C6: input never touches pitch, and after any update the pitch
lies within the symmetric safe bound pi/2 - 0.0001. -/
theorem c6_pitch_invariant :
    (∀ (c : FPSCamera) (e : ControllerEvent),
      (FPSCamera.input c e).pitch = c.pitch) ∧
    (∀ (c : FPSCamera) (dt : ℝ),
      -SAFE_FRAC_PI_2 ≤ (c.update dt).pitch ∧
      (c.update dt).pitch ≤ SAFE_FRAC_PI_2) := by
  constructor
  · intro c e
    cases e with
    | KeyboardInput st k => cases k <;> simp [FPSCamera.input]
    | MouseMove d => simp [FPSCamera.input]
    | MouseScroll s => simp [FPSCamera.input]
    | MouseInput st b => simp [FPSCamera.input]
  · intro c dt
    have h : (c.update dt).pitch
        = clampPitch (c.pitch + (-c.rotate_vertical) * c.sensitivity * dt) := rfl
    rw [h]
    exact clampPitch_mem _

/-- Claim C7: with no input in between, the second update adds zero to
yaw and re-clamps an already clamped pitch, so the pose rotation is
unchanged; update indeed zeroes both rotation deltas. -/
theorem c7_update_resets_rotation :
    ∀ (c : FPSCamera) (dt1 dt2 : ℝ),
      ((c.update dt1).update dt2).yaw = (c.update dt1).yaw ∧
      ((c.update dt1).update dt2).pitch = (c.update dt1).pitch ∧
      (c.update dt1).rotate_horizontal = 0 ∧
      (c.update dt1).rotate_vertical = 0 := by
  intro c dt1 dt2
  have hrh : (c.update dt1).rotate_horizontal = 0 := rfl
  have hrv : (c.update dt1).rotate_vertical = 0 := rfl
  have hy : ((c.update dt1).update dt2).yaw
      = (c.update dt1).yaw + (c.update dt1).rotate_horizontal
          * (c.update dt1).sensitivity * dt2 := rfl
  have hp : ((c.update dt1).update dt2).pitch
      = clampPitch ((c.update dt1).pitch
          + (-(c.update dt1).rotate_vertical) * (c.update dt1).sensitivity * dt2) := rfl
  have hmem : -SAFE_FRAC_PI_2 ≤ (c.update dt1).pitch ∧
      (c.update dt1).pitch ≤ SAFE_FRAC_PI_2 := by
    have h : (c.update dt1).pitch
        = clampPitch (c.pitch + (-c.rotate_vertical) * c.sensitivity * dt1) := rfl
    rw [h]
    exact clampPitch_mem _
  refine ⟨?_, ?_, hrh, hrv⟩
  · rw [hy, hrh]
    ring
  · rw [hp, hrv]
    rw [show (-(0:ℝ)) * (c.update dt1).sensitivity * dt2 = 0 by ring, add_zero]
    exact clampPitch_eq_self _ hmem.1 hmem.2

/-- Claim C10: MouseScroll subtracts the event amount from the scroll
accumulator (so repeated events sum with inverted sign), update moves the
position by scroll times speed times sensitivity times dt along the
scrollward direction when no movement key is held, and update resets the
accumulator to zero. -/
theorem c10_scroll_accumulator :
    (∀ (c : FPSCamera) (s : ℝ),
      (c.input (ControllerEvent.MouseScroll s)).scroll = c.scroll - s) ∧
    (∀ (c : FPSCamera) (s1 s2 : ℝ),
      ((c.input (ControllerEvent.MouseScroll s1)).input
          (ControllerEvent.MouseScroll s2)).scroll = c.scroll - s1 - s2) ∧
    (∀ (c : FPSCamera) (dt : ℝ), (c.update dt).scroll = 0) ∧
    (∀ (c : FPSCamera) (dt : ℝ),
      c.amount_forward = 0 → c.amount_backward = 0 → c.amount_left = 0 →
      c.amount_right = 0 → c.amount_up = 0 → c.amount_down = 0 →
      (c.update dt).position
        = t3add c.position
            (t3smul (scrollwardDir c.yaw c.pitch)
              (c.scroll * c.speed * c.sensitivity * dt))) := by
  refine ⟨fun c s => rfl, fun c s1 s2 => rfl, fun c dt => rfl, ?_⟩
  intro c dt h1 h2 h3 h4 h5 h6
  simp only [FPSCamera.update, h1, h2, h3, h4, h5, h6, t3add, t3smul]
  norm_num

/-- Witness for C10 at the concrete resting camera with scroll 5. -/
theorem c10_scroll_accumulator_witness :
    (fpsCam0.update 1).position
      = t3add fpsCam0.position
          (t3smul (scrollwardDir fpsCam0.yaw fpsCam0.pitch)
            (fpsCam0.scroll * fpsCam0.speed * fpsCam0.sensitivity * 1)) :=
  c10_scroll_accumulator.2.2.2 fpsCam0 1 rfl rfl rfl rfl rfl rfl

/-- Counterexample to C5 as stated: at yaw 0 and pitch pi/4 the update's
scrollward direction differs from the direction view_proj hands to
look_to_rh (the latter omits the cos-pitch factors). -/
theorem c5_scrollward_cex :
    scrollwardDir 0 (Real.pi / 4) ≠ fpsViewDir 0 (Real.pi / 4) := by
  have h2 : Real.sqrt 2 ^ 2 = 2 := Real.sq_sqrt (by norm_num)
  have h2nn : (0:ℝ) ≤ Real.sqrt 2 := Real.sqrt_nonneg 2
  have h32 : Real.sqrt (3 / 2) ^ 2 = 3 / 2 := Real.sq_sqrt (by norm_num)
  have h32pos : 0 < Real.sqrt (3 / 2) := Real.sqrt_pos.mpr (by norm_num)
  intro h
  have hx := congrArg Prod.fst h
  simp only [scrollwardDir, fpsViewDir, v3normalize, v3mag, v3dot, t3smul,
    Real.cos_zero, Real.sin_zero, Real.sin_pi_div_four, Real.cos_pi_div_four] at hx
  norm_num at hx
  rw [show Real.sqrt 2 / 2 * (Real.sqrt 2 / 2) + Real.sqrt 2 / 2 * (Real.sqrt 2 / 2)
        = 1 by nlinarith [h2],
      Real.sqrt_one,
      show (1:ℝ) + Real.sqrt 2 / 2 * (Real.sqrt 2 / 2) = 3 / 2 by nlinarith [h2]] at hx
  have hne : Real.sqrt 2 / 2 * (1:ℝ)⁻¹ ≠ (Real.sqrt (3 / 2))⁻¹ := by
    intro heq
    have hsq := congrArg (fun t => t ^ 2) heq
    simp only [inv_one, mul_one, div_pow, inv_pow] at hsq
    rw [h2, h32] at hsq
    norm_num at hsq
  exact hne hx

/-- Claim C5 amended: at pitch 0 the scroll direction and the view_proj
look direction agree; in general (see the counterexample) they differ
because view_proj omits the cos-pitch factors on the horizontal
components. -/
theorem c5_scrollward_amended :
    ∀ yaw : ℝ, scrollwardDir yaw 0 = fpsViewDir yaw 0 := by
  intro yaw
  simp [scrollwardDir, fpsViewDir, Real.cos_zero, Real.sin_zero]

/-- The dot square of a vector is nonnegative. -/
theorem v3dot_self_nonneg (a : V3) : 0 ≤ v3dot a a := by
  unfold v3dot
  nlinarith [mul_self_nonneg a.1, mul_self_nonneg a.2.1, mul_self_nonneg a.2.2]

/-- Scaling twice multiplies the scalars. -/
theorem t3smul_smul (a : V3) (x y : ℝ) :
    t3smul (t3smul a x) y = t3smul a (x * y) := by
  simp only [t3smul, Prod.mk.injEq]
  refine ⟨by ring, by ring, by ring⟩

/-- The dot square of a scaled vector. -/
theorem v3dot_smul (a : V3) (s : ℝ) :
    v3dot (t3smul a s) (t3smul a s) = s ^ 2 * v3dot a a := by
  simp only [v3dot, t3smul]
  ring

/-- The magnitude of a scaled vector. -/
theorem v3mag_smul (a : V3) (s : ℝ) :
    v3mag (t3smul a s) = |s| * v3mag a := by
  unfold v3mag
  rw [v3dot_smul, Real.sqrt_mul (sq_nonneg s), Real.sqrt_sq_eq_abs]

/-- Subtracting a scaled copy of a vector from itself rescales it. -/
theorem t3sub_smul_self (f : V3) (x : ℝ) :
    t3sub f (t3smul f x) = t3smul f (1 - x) := by
  simp only [t3sub, t3smul, Prod.mk.injEq]
  refine ⟨by ring, by ring, by ring⟩

/-- Subtraction after addition regroups. -/
theorem t3sub_t3add (t e v : V3) :
    t3sub t (t3add e v) = t3sub (t3sub t e) v := by
  simp only [t3sub, t3add, Prod.mk.injEq]
  refine ⟨by ring, by ring, by ring⟩

/-- With only the forward key held, one orbit-camera update either steps
the eye by speed times dt toward the target (when the distance exceeds 1)
or leaves it alone, and the new distance is the absolute difference. -/
theorem pdist_update_forward (c : PerspectiveCamera) (dt : ℝ)
    (hf : c.is_forward_pressed = true) (hb : c.is_backward_pressed = false)
    (hl : c.is_left_pressed = false) (hr : c.is_right_pressed = false)
    (hu : c.is_up_pressed = false) (hd : c.is_down_pressed = false) :
    pdist (c.update dt)
      = if 1 < pdist c then |pdist c - c.speed * dt| else pdist c := by
  unfold pdist
  simp only [PerspectiveCamera.update, hf, hb, hl, hr, hu, hd,
    Bool.false_eq_true, if_false, Bool.true_eq, gt_iff_lt, true_and]
  split_ifs with h1
  · rw [t3sub_t3add,
      show v3normalize (t3sub c.target c.eye)
          = t3smul (t3sub c.target c.eye)
              (1 / v3mag (t3sub c.target c.eye)) from rfl,
      t3smul_smul, t3sub_smul_self, v3mag_smul]
    have hmagpos : 0 < v3mag (t3sub c.target c.eye) := lt_trans one_pos h1
    rw [show |1 - 1 / v3mag (t3sub c.target c.eye) * (c.speed * dt)|
            * v3mag (t3sub c.target c.eye)
          = |(1 - 1 / v3mag (t3sub c.target c.eye) * (c.speed * dt))
              * v3mag (t3sub c.target c.eye)| by
        rw [abs_mul, abs_of_pos hmagpos]]
    congr 1
    field_simp
  · rfl

/-- One clamped forward step keeps the distance above
min 1 (1 - step). -/
theorem pdist_step_lower (m s : ℝ) (hm : min 1 (1 - s) < m) :
    min 1 (1 - s) < if 1 < m then |m - s| else m := by
  split_ifs with h1
  · rcases le_or_lt s m with hsm | hms
    · rw [abs_of_nonneg (by linarith)]
      calc min 1 (1 - s) ≤ 1 - s := min_le_right _ _
        _ < m - s := by linarith
    · rw [abs_of_neg (by linarith)]
      have hs1 : 1 < s := lt_trans h1 hms
      calc min 1 (1 - s) ≤ 1 - s := min_le_right _ _
        _ < -(m - s) := by linarith
  · exact hm

/-- The distance invariant survives any number of forward-only updates. -/
theorem pdist_iterate_lower (dt : ℝ) :
    ∀ (n : ℕ) (c : PerspectiveCamera),
      c.is_forward_pressed = true → c.is_backward_pressed = false →
      c.is_left_pressed = false → c.is_right_pressed = false →
      c.is_up_pressed = false → c.is_down_pressed = false →
      min 1 (1 - c.speed * dt) < pdist c →
      min 1 (1 - c.speed * dt)
        < pdist ((fun x => PerspectiveCamera.update x dt)^[n] c) := by
  intro n
  induction n with
  | zero =>
    intro c _ _ _ _ _ _ h
    simpa using h
  | succ k ih =>
    intro c hf hb hl hr hu hd h
    rw [Function.iterate_succ_apply]
    have h1 : min 1 (1 - c.speed * dt) < pdist (c.update dt) := by
      rw [pdist_update_forward c dt hf hb hl hr hu hd]
      exact pdist_step_lower _ _ h
    exact ih (c.update dt) hf hb hl hr hu hd h1

/-- The distance from eye (0,0,0) to target (0,0,2) is 2. -/
theorem pdist_perspCamFwd : pdist perspCamFwd = 2 := by
  unfold pdist perspCamFwd
  simp [v3mag, v3dot, t3sub]

/-- Counterexample to C3 as stated: from distance 2 with speed 3/2 and
dt 1, one forward-pressed update lands the eye at distance 1/2, at or
below the claimed floor of 1. -/
theorem c3_forward_clamp_cex :
    1 < pdist perspCamFwd ∧ perspCamFwd.is_forward_pressed = true ∧
    perspCamFwd.is_backward_pressed = false ∧
    perspCamFwd.is_left_pressed = false ∧
    perspCamFwd.is_right_pressed = false ∧
    perspCamFwd.is_up_pressed = false ∧
    perspCamFwd.is_down_pressed = false ∧
    pdist (perspCamFwd.update 1) ≤ 1 := by
  refine ⟨by rw [pdist_perspCamFwd]; norm_num, rfl, rfl, rfl, rfl, rfl, rfl, ?_⟩
  rw [pdist_update_forward perspCamFwd 1 rfl rfl rfl rfl rfl rfl,
    pdist_perspCamFwd]
  norm_num [perspCamFwd, abs_of_nonneg]

/-- Claim C3 amended: with only forward pressed and a starting distance
above 1, the target-eye distance after any number of updates stays above
min 1 (1 - speed dt): the forward branch stops once the distance is at
most 1, but a single step of size speed dt can overshoot to as little as
just above 1 - speed dt. -/
theorem c3_forward_clamp_amended (c : PerspectiveCamera) (dt : ℝ)
    (hf : c.is_forward_pressed = true) (hb : c.is_backward_pressed = false)
    (hl : c.is_left_pressed = false) (hr : c.is_right_pressed = false)
    (hu : c.is_up_pressed = false) (hd : c.is_down_pressed = false)
    (h0 : 1 < pdist c) (n : ℕ) :
    min 1 (1 - c.speed * dt)
      < pdist ((fun x => PerspectiveCamera.update x dt)^[n] c) :=
  pdist_iterate_lower dt n c hf hb hl hr hu hd
    (lt_of_le_of_lt (min_le_left _ _) h0)

/-- Witness for the amended C3: one update of the concrete camera. -/
theorem c3_forward_clamp_witness :
    1 < pdist perspCamFwd ∧
    min 1 (1 - perspCamFwd.speed * 1)
      < pdist ((fun x => PerspectiveCamera.update x 1)^[1] perspCamFwd) :=
  ⟨by rw [pdist_perspCamFwd]; norm_num,
   c3_forward_clamp_amended perspCamFwd 1 rfl rfl rfl rfl rfl rfl
     (by rw [pdist_perspCamFwd]; norm_num) 1⟩
